import Mathlib

/-!
Verification of the SSE full-script-support evaluation pipeline
(`ScriptEval_script.py`): type classification, row transposition,
result encoding and the dispatch orchestrator.

Shallow embedding conventions:
* protobuf enum values (`SSE.STRING`, ...) are `Nat` constants with the
  wire numbering of the proto file;
* a protobuf `Dual` is a record of its numeric field (`numData`, a double
  on the wire, modelled as `Int`) and its textual field (`strData`);
* Python values flowing out of the script evaluator are modelled by the
  inductive `PyVal` (numbers, strings, lists);
* Python exceptions are modelled by `Except PyErr`; the gRPC context
  mutated by `set_code` / `set_details` is threaded explicitly;
* `logging` calls carry no data flow; the single `logging.info` line of
  `EvaluateScript` is modelled as a `LogEvent` in the orchestrator's
  output (the `logging.debug` lines are omitted);
* the opaque `eval(script, ...)` call is a parameter of type `Evaluator`.
-/

/-- Wire value of `SSE.STRING` in the `DataType` enum. -/
def STRING : Nat := 0

/-- Wire value of `SSE.NUMERIC` in the `DataType` enum. -/
def NUMERIC : Nat := 1

/-- Wire value of `SSE.DUAL` in the `DataType` enum. -/
def DUAL : Nat := 2

/-- Wire value of `SSE.SCALAR` in the `FunctionType` enum. -/
def SCALAR : Nat := 0

/-- Wire value of `SSE.AGGREGATION` in the `FunctionType` enum. -/
def AGGREGATION : Nat := 1

/-- Wire value of `SSE.TENSOR` in the `FunctionType` enum. -/
def TENSOR : Nat := 2

/-- The `ArgType` enum of `SSEData_script.py`. -/
inductive ArgType where
  | Empty
  | String
  | Numeric
  | Mixed
  | Undefined
deriving DecidableEq, Repr

/-- The `ReturnType` enum of `SSEData_script.py`. -/
inductive ReturnType where
  | String
  | Numeric
  | Dual
  | Undefined
deriving DecidableEq, Repr

/-- The `FunctionType` enum of `SSEData_script.py`. -/
inductive FunctionType where
  | Scalar
  | Aggregation
  | Tensor
deriving DecidableEq, Repr

/-- A wire `SSE.Dual`: simultaneous numeric and textual representations.
The proto double `numData` is modelled as `Int`; proto defaults are
`0` and `""`. -/
structure Dual where
  numData : Int
  strData : String
deriving DecidableEq, Repr

/-- One entry of `header.params`; only its `dataType` is read by the code. -/
structure Param where
  dataType : Nat
deriving DecidableEq, Repr

/-- The script-request header fields read by `ScriptEval`. -/
structure Header where
  script : String
  functionType : Nat
  returnType : Nat
  params : List Param
deriving DecidableEq, Repr

/-- gRPC status codes used by the code (`grpc.StatusCode.INVALID_ARGUMENT`). -/
inductive StatusCode where
  | invalidArgument
deriving DecidableEq, Repr

/-- The mutable gRPC server context: the fields written by `set_code` and
`set_details`. -/
structure GrpcContext where
  code : Option StatusCode
  details : Option String
deriving DecidableEq, Repr

/-- Python exceptions raised along the pipeline. -/
inductive PyErr where
  | rpcError (msg : String)
  | indexError
  | typeError
  | nameError
deriving DecidableEq, Repr

/-- A raw per-parameter value extracted from a `Dual` by `get_arguments`:
a string, a number, or the `(numData, strData)` tuple built for a
DUAL-typed parameter under Mixed classification. -/
inductive Val where
  | num (n : Int)
  | str (s : String)
  | pair (n : Int) (s : String)
deriving DecidableEq, Repr

/-- An argument column handed to the script: either one flat list of
values, or (for a DUAL-typed parameter under Mixed classification, after
the second transpose stage) a pair of parallel numeric and textual
columns. -/
inductive Column where
  | flat (vs : List Val)
  | split (nums : List Int) (strs : List String)
deriving DecidableEq, Repr

/-- A Python value produced by evaluating the script. -/
inductive PyVal where
  | num (n : Int)
  | str (s : String)
  | list (items : List PyVal)

/-- The opaque `eval(script, {'args': params, 'numpy': numpy})` call. -/
def Evaluator : Type := String → List Column → Except PyErr PyVal

/-- `ScriptEval.get_func_type`: maps the header tag to `FunctionType`; the
`if/elif` chain has no `else`, so an out-of-enum tag returns `None`. -/
def get_func_type (functionType : Nat) : Option FunctionType :=
  if functionType = SCALAR then some FunctionType.Scalar
  else if functionType = AGGREGATION then some FunctionType.Aggregation
  else if functionType = TENSOR then some FunctionType.Tensor
  else none

/-- `ScriptEval.get_arg_types`: classifies the list
`[param.dataType for param in header.params]`. -/
def get_arg_types (data_types : List Nat) : ArgType :=
  if data_types = [] then ArgType.Empty
  else if 1 < data_types.dedup.length ∨ ∀ d ∈ data_types, d = DUAL then
    ArgType.Mixed
  else if ∀ d ∈ data_types, d = STRING then ArgType.String
  else if ∀ d ∈ data_types, d = NUMERIC then ArgType.Numeric
  else ArgType.Undefined

/-- `ScriptEval.get_return_type`: maps `header.returnType` to `ReturnType`. -/
def get_return_type (returnType : Nat) : ReturnType :=
  if returnType = STRING then ReturnType.String
  else if returnType = NUMERIC then ReturnType.Numeric
  else if returnType = DUAL then ReturnType.Dual
  else ReturnType.Undefined

/-- The Mixed branch of `get_arguments`: `zip(duals, header.params)`
truncates to the shorter list, and a parameter whose `dataType` matches
none of STRING/NUMERIC/DUAL appends nothing to `script_args`. -/
def mixedArgs : List Dual → List Param → List Val
  | d :: ds, p :: ps =>
    (if p.dataType = STRING then [Val.str d.strData]
     else if p.dataType = NUMERIC then [Val.num d.numData]
     else if p.dataType = DUAL then [Val.pair d.numData d.strData]
     else []) ++ mixedArgs ds ps
  | _, _ => []

/-- `ScriptEval.get_arguments`: extracts one raw value per dual for one
row. The final `else` (reached for `ArgType.Undefined`, and for
`ArgType.Empty` which the orchestrator never passes here) sets the
invalid-argument status and details on the context and raises
`grpc.RpcError`. The message is the literal
`'Undefined argument type: '.format(arg_types)`; the format string has no
placeholder, so `format` returns it unchanged. -/
def get_arguments (context : GrpcContext) (arg_types : ArgType)
    (duals : List Dual) (params : List Param) :
    GrpcContext × Except PyErr (List Val) :=
  match arg_types with
  | ArgType.String =>
    (context, Except.ok (duals.map (fun d => Val.str d.strData)))
  | ArgType.Numeric =>
    (context, Except.ok (duals.map (fun d => Val.num d.numData)))
  | ArgType.Mixed =>
    (context, Except.ok (mixedArgs duals params))
  | _ =>
    ({ code := some StatusCode.invalidArgument
     , details := some "Undefined argument type: " },
     Except.error (PyErr.rpcError "Undefined argument type: "))

/-- Length of the shortest iterable passed to Python's `zip`; `zip()` with
no iterables is empty. -/
def pyMinLen : List (List α) → Nat
  | [] => 0
  | [r] => r.length
  | r :: rs => min r.length (pyMinLen rs)

/-- Python's `[list(col) for col in zip(*rows)]`: transposes a list of
rows into a list of columns, truncating at the shortest row; with zero
rows it yields zero columns. -/
def pyZip (rows : List (List α)) : List (List α) :=
  (List.range (pyMinLen rows)).map (fun i => rows.filterMap (fun r => r[i]?))

/-- Extracts the `(numData, strData)` tuple stored at a DUAL position. -/
def toPair : Val → Option (Int × String)
  | Val.pair n s => some (n, s)
  | _ => none

/-- The inner `[list(x) for x in zip(*all_rows[i])]` of the Mixed
post-processing: unzips a column of `(numData, strData)` tuples into a
numeric column and a textual column. Zipping an empty column yields no
columns at all; a non-tuple element raises `TypeError`. -/
def splitDualColumn (col : List Val) : Except PyErr Column :=
  match col with
  | [] => Except.ok (Column.flat [])
  | _ =>
    match col.mapM toPair with
    | none => Except.error PyErr.typeError
    | some prs =>
      Except.ok (Column.split (prs.map Prod.fst) (prs.map Prod.snd))

/-- The `for i, datatype in enumerate(param_datatypes)` loop of
`EvaluateScript` lines 54-59: at each DUAL-typed position `i`, replaces
`all_rows[i]` by its unzipped form; indexing past the end of `all_rows`
raises `IndexError`. -/
def stage2Step : List (Nat × Param) → List Column → Except PyErr (List Column)
  | [], cols => Except.ok cols
  | (i, p) :: rest, cols =>
    if p.dataType = DUAL then
      match cols[i]? with
      | none => Except.error PyErr.indexError
      | some (Column.flat vs) =>
        match splitDualColumn vs with
        | Except.error e => Except.error e
        | Except.ok c => stage2Step rest (cols.set i c)
      | some (Column.split _ _) => Except.error PyErr.typeError
    else stage2Step rest cols

/-- The Mixed post-processing stage over all enumerated parameters. -/
def stage2_all (params : List Param) (cols : List Column) :
    Except PyErr (List Column) :=
  stage2Step params.enum cols

/-- The per-row extraction loop of `EvaluateScript` lines 42-47: calls
`get_arguments` on each row in order, threading the context; the raised
error of the first failing row aborts the loop. -/
def extractAll (context : GrpcContext) (arg_types : ArgType)
    (params : List Param) : List (List Dual) →
    GrpcContext × Except PyErr (List (List Val))
  | [] => (context, Except.ok [])
  | duals :: rest =>
    match get_arguments context arg_types duals params with
    | (c, Except.error e) => (c, Except.error e)
    | (c, Except.ok vals) =>
      match extractAll c arg_types params rest with
      | (c', Except.error e) => (c', Except.error e)
      | (c', Except.ok others) => (c', Except.ok (vals :: others))

/-- The transposition pipeline of `EvaluateScript` lines 39-59: per-row
extraction, the row-to-column `zip(*all_rows)`, and — under Mixed
classification only — the per-DUAL-parameter second transpose stage.
Under any other classification every column stays flat. -/
def transpose_args (context : GrpcContext) (arg_types : ArgType)
    (params : List Param) (rows : List (List Dual)) :
    GrpcContext × Except PyErr (List Column) :=
  match extractAll context arg_types params rows with
  | (c, Except.error e) => (c, Except.error e)
  | (c, Except.ok all_rows) =>
    let cols := pyZip all_rows
    if arg_types = ArgType.Mixed then
      (c, stage2_all params (cols.map Column.flat))
    else (c, Except.ok (cols.map Column.flat))

/-- Python `isinstance(v, str)`. -/
def isStr : PyVal → Bool
  | PyVal.str _ => true
  | _ => false

/-- Python `hasattr(v, '__iter__')`: strings and lists iterate, numbers
do not. -/
def hasIter : PyVal → Bool
  | PyVal.num _ => false
  | _ => true

/-- Python iteration over a value: a list yields its items, a string its
one-character substrings; a number is not iterable (this arm is
unreachable behind the `hasIter` guard). -/
def pyIter : PyVal → List PyVal
  | PyVal.list items => items
  | PyVal.str s => s.toList.map (fun c => PyVal.str (String.mk [c]))
  | PyVal.num n => [PyVal.num n]

/-- The normalization `if isinstance(result, str) or not
hasattr(result, '__iter__'): result = [result]` shared by `get_duals`
line 158 and `evaluate` line 180. -/
def py_rows (v : PyVal) : List PyVal :=
  if isStr v || !hasIter v then [v] else pyIter v

/-- Protobuf `SSE.Dual(strData=col)`: accepts a string and leaves
`numData` at its default; any other value raises `TypeError`. -/
def mkStrDual : PyVal → Except PyErr Dual
  | PyVal.str s => Except.ok { numData := 0, strData := s }
  | _ => Except.error PyErr.typeError

/-- Protobuf `SSE.Dual(numData=col)`: accepts a number and leaves
`strData` at its default; any other value raises `TypeError`. -/
def mkNumDual : PyVal → Except PyErr Dual
  | PyVal.num n => Except.ok { numData := n, strData := "" }
  | _ => Except.error PyErr.typeError

/-- `ScriptEval.get_duals`: normalizes the result to an iterable, then
wraps every element as a Dual according to the return type. For
`ReturnType.Dual` and `ReturnType.Undefined` no branch of the `if/elif`
chain assigns `duals`, so `return iter(duals)` raises a `NameError`. -/
def get_duals (result : PyVal) (ret_type : ReturnType) :
    Except PyErr (List Dual) :=
  let res := py_rows result
  match ret_type with
  | ReturnType.String => res.mapM mkStrDual
  | ReturnType.Numeric => res.mapM mkNumDual
  | _ => Except.error PyErr.nameError

/-- The encoding half of `ScriptEval.evaluate` lines 179-188: the result
is normalized to a sequence of rows by the single-value-vs-sequence rule
and each row becomes one wire row of duals via `get_duals`. -/
def encode_result (result : PyVal) (ret_type : ReturnType) :
    Except PyErr (List (List Dual)) :=
  (py_rows result).mapM (fun row => get_duals row ret_type)

/-- `ScriptEval.evaluate`: runs the opaque evaluator on the script with
the bound argument columns, then encodes the result as one bundle of
rows of duals. -/
def evaluate (ev : Evaluator) (script : String) (ret_type : ReturnType)
    (params : List Column) : Except PyErr (List (List Dual)) :=
  match ev script params with
  | Except.error e => Except.error e
  | Except.ok result => encode_result result ret_type

/-- The data-flow core of `EvaluateScript`: with no declared parameters
the request stream is never read and the script runs with empty `args`;
otherwise the flattened rows are transposed and the columns passed to
the script. In both branches exactly one bundled-rows value is yielded. -/
def run_core (ev : Evaluator) (script : String) (arg_types : ArgType)
    (ret_type : ReturnType) (params : List Param)
    (rows : List (List Dual)) (context : GrpcContext) :
    GrpcContext × Except PyErr (List (List (List Dual))) :=
  if params = [] then
    (context, (evaluate ev script ret_type []).map (fun b => [b]))
  else
    match transpose_args context arg_types params rows with
    | (c, Except.error e) => (c, Except.error e)
    | (c, Except.ok cols) =>
      (c, (evaluate ev script ret_type cols).map (fun b => [b]))

/-- The `logging.info` record of `EvaluateScript` line 34. -/
inductive LogEvent where
  | evalInfo (script : String) (arg_types : ArgType)
      (ret_type : ReturnType) (func_type : Option FunctionType)
deriving DecidableEq, Repr

/-- Everything observable about one `EvaluateScript` invocation: the
final context, the log records, and either the list of yielded bundles
or the raised error. -/
structure EvalOut where
  context : GrpcContext
  logs : List LogEvent
  result : Except PyErr (List (List (List Dual)))

/-- `ScriptEval.EvaluateScript`: resolves the function type (used only in
the log line), the argument classification and the return type, then
runs the core pipeline over the rows of all bundles of the request. -/
def EvaluateScript (ev : Evaluator) (header : Header)
    (request : List (List (List Dual))) (context : GrpcContext) : EvalOut :=
  let func_type := get_func_type header.functionType
  let arg_types := get_arg_types (header.params.map (fun p => p.dataType))
  let ret_type := get_return_type header.returnType
  let core := run_core ev header.script arg_types ret_type header.params
    request.flatten context
  { context := core.1
  , logs := [LogEvent.evalInfo header.script arg_types ret_type func_type]
  , result := core.2 }

/-- Modelled from the spec (§4.1): the classification algorithm exactly
as the specification words it, over the set of distinct declared kinds;
compared with `get_arg_types` for the refinement claim. -/
def classifyArgumentsSpec (data_types : List Nat) : ArgType :=
  if data_types = [] then ArgType.Empty
  else if 1 < data_types.toFinset.card ∨ data_types.toFinset = {DUAL} then
    ArgType.Mixed
  else if data_types.toFinset = {STRING} then ArgType.String
  else if data_types.toFinset = {NUMERIC} then ArgType.Numeric
  else ArgType.Undefined

/-- The string carried by a Python string value (`""` otherwise); used to
state the shape of the encoded batch. -/
def strOfVal : PyVal → String
  | PyVal.str s => s
  | _ => ""

/-- The number carried by a Python numeric value (`0` otherwise); used to
state the shape of the encoded batch. -/
def numOfVal : PyVal → Int
  | PyVal.num n => n
  | _ => 0

/-- The single value the Mixed branch of `get_arguments` extracts from
one dual for one in-enum parameter kind. -/
def extractOne (d : Dual) (p : Param) : Val :=
  if p.dataType = STRING then Val.str d.strData
  else if p.dataType = NUMERIC then Val.num d.numData
  else Val.pair d.numData d.strData

/-- A declared kind inside the wire `DataType` enum. -/
abbrev inDataEnum (p : Param) : Prop :=
  p.dataType = STRING ∨ p.dataType = NUMERIC ∨ p.dataType = DUAL

/-- The components of a `(numData, strData)` tuple (`(0, "")` on a
non-tuple value); total companion of `toPair`. -/
def pairParts : Val → Int × String
  | Val.pair n s => (n, s)
  | _ => (0, "")

/-! ## Helper lemmas -/

/-- A nonempty list is uniformly `c` exactly when its set of distinct
elements is the singleton `{c}`. -/
theorem toFinset_eq_singleton_iff {l : List Nat} (hnil : l ≠ []) (c : Nat) :
    l.toFinset = {c} ↔ ∀ d ∈ l, d = c := by
  constructor
  · intro hf d hd
    have hmem : d ∈ l.toFinset := List.mem_toFinset.mpr hd
    rw [hf] at hmem
    exact Finset.mem_singleton.mp hmem
  · intro hall
    apply Finset.eq_singleton_iff_unique_mem.mpr
    refine ⟨?_, fun y hy => hall y (List.mem_toFinset.mp hy)⟩
    obtain ⟨x, hx⟩ := List.exists_mem_of_ne_nil l hnil
    exact (hall x hx) ▸ List.mem_toFinset.mpr hx

/-- A duplicate-free list all of whose elements are equal has at most one
element. -/
theorem length_le_one_of_nodup_of_all_eq {l : List Nat} (hn : l.Nodup)
    (c : Nat) (hall : ∀ x ∈ l, x = c) : l.length ≤ 1 := by
  match l with
  | [] => simp
  | [a] => simp
  | a :: b :: t =>
    have ha : a = c := hall a (by simp)
    have hb : b = c := hall b (by simp)
    have : a ≠ b := by
      have := List.nodup_cons.mp hn
      simp at this
      exact fun hab => this.1.1 (hab ▸ rfl)
    exact absurd (ha.trans hb.symm) this

/-- A nonempty uniform list classifies by its single kind: the distinct
set has at most one element and the various `all` tests reduce to tests
on that kind. -/
theorem dedup_length_le_one_of_all_eq {l : List Nat} (c : Nat)
    (hall : ∀ x ∈ l, x = c) : l.dedup.length ≤ 1 :=
  length_le_one_of_nodup_of_all_eq (List.nodup_dedup l) c
    (fun x hx => hall x (List.mem_dedup.mp hx))

/-! ## C2 -/

/-- C2: argument classification is a pure function of the declared-kind
sequence and agrees with the specification's formulation over the set of
distinct kinds: Empty iff the sequence is empty; otherwise Mixed iff the
distinct set has size greater than 1 or is exactly the singleton DUAL;
otherwise String / Numeric for the singleton STRING / NUMERIC sets; else
Undefined. -/
theorem c2_classification_matches_spec (data_types : List Nat) :
    get_arg_types data_types = classifyArgumentsSpec data_types := by
  by_cases hnil : data_types = []
  · subst hnil; rfl
  · have hcard : data_types.toFinset.card = data_types.dedup.length :=
      List.card_toFinset data_types
    simp only [get_arg_types, classifyArgumentsSpec, if_neg hnil, hcard,
      toFinset_eq_singleton_iff hnil]

/-! ## C5 -/

/-- C5 counterexample: a declared-kind sequence containing the
out-of-enum value 7 next to STRING classifies as Mixed (the distinct set
has size 2), not Undefined, and per-row extraction then succeeds instead
of failing: the out-of-enum parameter is silently skipped. -/
theorem c5_counterexample :
    get_arg_types [STRING, 7] = ArgType.Mixed ∧
    get_arg_types [STRING, 7] ≠ ArgType.Undefined ∧
    (get_arguments ⟨none, none⟩ (get_arg_types [STRING, 7])
        [⟨1, "a"⟩, ⟨2, "b"⟩] [⟨STRING⟩, ⟨7⟩]).2 =
      Except.ok [Val.str "a"] := by
  refine ⟨by decide, by decide, rfl⟩

/-- C5 amended: a declared-kind sequence all of whose entries are one and
the same out-of-enum value classifies as Undefined, and extraction then
fails with the invalid-argument status and the RpcError; a sequence with
two or more distinct kinds classifies as Mixed even when it contains an
out-of-enum value. -/
theorem c5_amended (k : Nat) (data_types : List Nat)
    (hnil : data_types ≠ []) (hall : ∀ d ∈ data_types, d = k)
    (hs : k ≠ STRING) (hn : k ≠ NUMERIC) (hd : k ≠ DUAL) :
    get_arg_types data_types = ArgType.Undefined ∧
    ∀ context duals params,
      get_arguments context (get_arg_types data_types) duals params =
        ({ code := some StatusCode.invalidArgument
          , details := some "Undefined argument type: " },
         Except.error (PyErr.rpcError "Undefined argument type: ")) := by
  obtain ⟨x, hx⟩ := List.exists_mem_of_ne_nil data_types hnil
  have hxk : x = k := hall x hx
  have h1 : ¬ (1 < data_types.dedup.length ∨ ∀ d ∈ data_types, d = DUAL) := by
    rintro (hgt | hdual)
    · exact absurd hgt (by
        have := dedup_length_le_one_of_all_eq k hall
        omega)
    · exact hd (hxk ▸ hdual x hx)
  have h2 : ¬ ∀ d ∈ data_types, d = STRING := fun h => hs (hxk ▸ h x hx)
  have h3 : ¬ ∀ d ∈ data_types, d = NUMERIC := fun h => hn (hxk ▸ h x hx)
  have hU : get_arg_types data_types = ArgType.Undefined := by
    simp only [get_arg_types, if_neg hnil, if_neg h1, if_neg h2, if_neg h3]
  refine ⟨hU, fun context duals params => ?_⟩
  rw [hU]
  rfl

/-- C5 amended, witness: the uniform out-of-enum sequence `[7, 7]`. -/
theorem c5_amended_witness :
    get_arg_types [7, 7] = ArgType.Undefined ∧
    get_arguments ⟨none, none⟩ (get_arg_types [7, 7]) [⟨3, "x"⟩] [⟨7⟩] =
      ({ code := some StatusCode.invalidArgument
        , details := some "Undefined argument type: " },
       Except.error (PyErr.rpcError "Undefined argument type: ")) := by
  have h := c5_amended 7 [7, 7] (by decide) (by decide) (by decide)
    (by decide) (by decide)
  exact ⟨h.1, h.2 ⟨none, none⟩ [⟨3, "x"⟩] [⟨7⟩]⟩

/-! ## C10 -/

/-- Under Mixed extraction, each parameter contributes at most one value,
so the extracted row is never longer than the `zip`-truncated parameter
list. -/
theorem mixedArgs_length_le : ∀ (duals : List Dual) (params : List Param),
    (mixedArgs duals params).length ≤ params.length := by
  intro duals params
  induction params generalizing duals with
  | nil => cases duals <;> simp [mixedArgs]
  | cons p ps ih =>
    cases duals with
    | nil => simp [mixedArgs]
    | cons d ds =>
      have hrec := ih ds
      simp only [mixedArgs, List.length_append, List.length_cons]
      split_ifs <;> simp <;> omega

/-- Under Mixed extraction with one dual per parameter, an out-of-enum
parameter strictly shortens the extracted row. -/
theorem mixedArgs_length_lt (duals : List Dual) (params : List Param)
    (hlen : duals.length = params.length)
    (hbad : ∃ p ∈ params, p.dataType ≠ STRING ∧ p.dataType ≠ NUMERIC ∧
      p.dataType ≠ DUAL) :
    (mixedArgs duals params).length < params.length := by
  induction params generalizing duals with
  | nil => simp at hbad
  | cons p ps ih =>
    cases duals with
    | nil => simp at hlen
    | cons d ds =>
      have hlen' : ds.length = ps.length := by simpa using hlen
      simp only [List.mem_cons] at hbad
      obtain ⟨q, (hq | hq), hq1, hq2, hq3⟩ := hbad
      · subst hq
        simp only [mixedArgs, if_neg hq1, if_neg hq2, if_neg hq3,
          List.nil_append, List.length_cons]
        have := mixedArgs_length_le ds ps
        omega
      · have hrec := ih ds hlen' ⟨q, hq, hq1, hq2, hq3⟩
        simp only [mixedArgs, List.length_append, List.length_cons]
        split_ifs <;> simp <;> omega

/-- C10: under Mixed classification, a parameter with an out-of-enum
declared kind contributes no value: per-row extraction succeeds with no
error and no status change, and the returned tuple is strictly shorter
than the declared parameter list. -/
theorem c10_out_of_enum_param_dropped (context : GrpcContext)
    (duals : List Dual) (params : List Param)
    (hlen : duals.length = params.length)
    (hbad : ∃ p ∈ params, p.dataType ≠ STRING ∧ p.dataType ≠ NUMERIC ∧
      p.dataType ≠ DUAL) :
    (get_arguments context ArgType.Mixed duals params).1 = context ∧
    ∃ vals, (get_arguments context ArgType.Mixed duals params).2 =
        Except.ok vals ∧ vals.length < params.length :=
  ⟨rfl, mixedArgs duals params, rfl, mixedArgs_length_lt duals params hlen hbad⟩

/-- C10 witness: kinds `[7, NUMERIC]` with one row of two duals — the
row extracts to the single value belonging to the second parameter. -/
theorem c10_witness :
    (get_arguments ⟨none, none⟩ ArgType.Mixed
        [⟨10, "ten"⟩, ⟨20, "twenty"⟩] [⟨7⟩, ⟨1⟩]).1 = ⟨none, none⟩ ∧
    ∃ vals, (get_arguments ⟨none, none⟩ ArgType.Mixed
        [⟨10, "ten"⟩, ⟨20, "twenty"⟩] [⟨7⟩, ⟨1⟩]).2 = Except.ok vals ∧
      vals.length < 2 :=
  c10_out_of_enum_param_dropped ⟨none, none⟩
    [⟨10, "ten"⟩, ⟨20, "twenty"⟩] [⟨7⟩, ⟨1⟩] (by decide)
    ⟨⟨7⟩, by decide, by decide, by decide, by decide⟩

/-! ## C9 -/

/-- C9: the dual-wrapping step of the encoder fails with a NameError for
the Dual and Undefined return classifications (no branch of the chain
assigns `duals`), and an encoded row is ever produced only for the
String and Numeric return classifications. -/
theorem c9_get_duals_string_numeric_only (result : PyVal) :
    get_duals result ReturnType.Dual = Except.error PyErr.nameError ∧
    get_duals result ReturnType.Undefined = Except.error PyErr.nameError ∧
    ∀ ret_type duals, get_duals result ret_type = Except.ok duals →
      ret_type = ReturnType.String ∨ ret_type = ReturnType.Numeric := by
  refine ⟨rfl, rfl, ?_⟩
  intro ret_type duals h
  cases ret_type with
  | String => exact Or.inl rfl
  | Numeric => exact Or.inr rfl
  | Dual => simp [get_duals] at h
  | Undefined => simp [get_duals] at h

/-- C9 witness: a numeric scalar under Dual return classification raises;
a string scalar under String classification encodes, and the theorem
forces that classification to be String or Numeric. -/
theorem c9_witness :
    get_duals (PyVal.num 3) ReturnType.Dual = Except.error PyErr.nameError ∧
    (ReturnType.String = ReturnType.String ∨
      ReturnType.String = ReturnType.Numeric) :=
  ⟨(c9_get_duals_string_numeric_only (PyVal.num 3)).1,
   (c9_get_duals_string_numeric_only (PyVal.str "x")).2.2
     ReturnType.String [⟨0, "x"⟩] rfl⟩

/-! ## C6 -/

/-- A list `mapM` over `Except` succeeds pointwise: if every element maps
to `ok`, the whole traversal is `ok` of the pointwise results. -/
theorem mapM_except_ok {ε α β : Type} (f : α → Except ε β) (g : α → β)
    (l : List α) (h : ∀ x ∈ l, f x = Except.ok (g x)) :
    l.mapM f = Except.ok (l.map g) := by
  induction l with
  | nil => rfl
  | cons a t ih =>
    rw [List.mapM_cons, h a (List.mem_cons_self a t),
      ih (fun x hx => h x (List.mem_cons_of_mem a hx))]
    rfl

/-- A list `mapM` over `Option` succeeds pointwise. -/
theorem mapM_option_some {α β : Type} (f : α → Option β) (g : α → β)
    (l : List α) (h : ∀ x ∈ l, f x = some (g x)) :
    l.mapM f = some (l.map g) := by
  induction l with
  | nil => rfl
  | cons a t ih =>
    rw [List.mapM_cons, h a (List.mem_cons_self a t),
      ih (fun x hx => h x (List.mem_cons_of_mem a hx))]
    rfl

/-- C6: the encoder treats a non-sequence result as one row, normalizes
each row by the same rule, wraps each column scalar as a Dual populating
only the textual field under String return classification and only the
numeric field under Numeric, and preserves row and column order exactly
(the encoded batch is the pointwise image of the normalized result). -/
theorem c6_encoder_shape (result : PyVal) :
    ((∀ row ∈ py_rows result, ∀ v ∈ py_rows row, ∃ s, v = PyVal.str s) →
      encode_result result ReturnType.String =
        Except.ok ((py_rows result).map (fun row =>
          (py_rows row).map (fun v =>
            { numData := 0, strData := strOfVal v })))) ∧
    ((∀ row ∈ py_rows result, ∀ v ∈ py_rows row, ∃ n, v = PyVal.num n) →
      encode_result result ReturnType.Numeric =
        Except.ok ((py_rows result).map (fun row =>
          (py_rows row).map (fun v =>
            { numData := numOfVal v, strData := "" })))) := by
  constructor
  · intro h
    apply mapM_except_ok
    intro row hrow
    show (py_rows row).mapM mkStrDual = _
    apply mapM_except_ok
    intro v hv
    obtain ⟨s, rfl⟩ := h row hrow v hv
    rfl
  · intro h
    apply mapM_except_ok
    intro row hrow
    show (py_rows row).mapM mkNumDual = _
    apply mapM_except_ok
    intro v hv
    obtain ⟨n, rfl⟩ := h row hrow v hv
    rfl

/-- C6 witness: a two-row string table (one nested row, one bare scalar
row) under String classification, and a bare numeric scalar under
Numeric classification. -/
theorem c6_witness :
    encode_result (PyVal.list [PyVal.list [PyVal.str "a", PyVal.str "b"],
        PyVal.str "c"]) ReturnType.String =
      Except.ok [[⟨0, "a"⟩, ⟨0, "b"⟩], [⟨0, "c"⟩]] ∧
    encode_result (PyVal.num 5) ReturnType.Numeric =
      Except.ok [[⟨5, ""⟩]] := by
  constructor
  · apply (c6_encoder_shape _).1
    intro row hrow v hv
    simp [py_rows, pyIter, isStr, hasIter] at hrow
    rcases hrow with rfl | rfl
    · simp [py_rows, pyIter, isStr, hasIter] at hv
      rcases hv with rfl | rfl
      · exact ⟨"a", rfl⟩
      · exact ⟨"b", rfl⟩
    · simp [py_rows, pyIter, isStr, hasIter] at hv
      subst hv
      exact ⟨"c", rfl⟩
  · apply (c6_encoder_shape _).2
    intro row hrow v hv
    simp [py_rows, pyIter, isStr, hasIter] at hrow
    subst hrow
    simp [py_rows, pyIter, isStr, hasIter] at hv
    subst hv
    exact ⟨5, rfl⟩

/-! ## C3 -/

/-- Mapping a function over every row commutes with `pyMinLen`. -/
theorem pyMinLen_map {α β : Type} (f : α → β) :
    ∀ rows : List (List α),
      pyMinLen (rows.map (fun r => r.map f)) = pyMinLen rows
  | [] => rfl
  | [r] => by simp [pyMinLen]
  | r :: r2 :: rs => by
    have ih := pyMinLen_map f (r2 :: rs)
    simp only [List.map_cons] at ih ⊢
    simp [pyMinLen, ih]

/-- Selecting column `i` commutes with mapping a function over rows. -/
theorem filterMap_getElem_map {α β : Type} (f : α → β) (i : Nat) :
    ∀ rows : List (List α),
      (rows.map (fun r => r.map f)).filterMap (fun r => r[i]?) =
        (rows.filterMap (fun r => r[i]?)).map f
  | [] => rfl
  | r :: t => by
    have ih := filterMap_getElem_map f i t
    simp only [List.map_cons, List.filterMap_cons, List.getElem?_map]
    cases h : r[i]? with
    | none => simpa using ih
    | some a => simpa using ih

/-- Transposition commutes with mapping a function over every value. -/
theorem pyZip_map {α β : Type} (f : α → β) (rows : List (List α)) :
    pyZip (rows.map (fun r => r.map f)) = (pyZip rows).map (fun c => c.map f) := by
  unfold pyZip
  rw [pyMinLen_map, List.map_map]
  apply List.map_congr_left
  intro i _
  exact filterMap_getElem_map f i rows

/-- Encoding a list of textual columns as a batch of string Duals and
re-extracting the textual fields through String classification is the
identity on the columns. -/
theorem encode_extract_strings (cols : List (List String))
    (context : GrpcContext) (params : List Param) :
    ∃ batch,
      encode_result (PyVal.list (cols.map (fun c =>
          PyVal.list (c.map PyVal.str)))) ReturnType.String =
        Except.ok batch ∧
      batch.map (fun duals =>
          (get_arguments context ArgType.String duals params).2) =
        cols.map (fun c => Except.ok (c.map Val.str)) := by
  refine ⟨cols.map (fun c => c.map (fun s => ⟨0, s⟩)), ?_, ?_⟩
  · show (cols.map (fun c => PyVal.list (c.map PyVal.str))).mapM
      (fun row => get_duals row ReturnType.String) = _
    have h1 : ∀ row ∈ cols.map (fun c => PyVal.list (c.map PyVal.str)),
        (fun row => get_duals row ReturnType.String) row =
          Except.ok ((fun row => (py_rows row).map
            (fun v => ({ numData := 0, strData := strOfVal v } : Dual))) row) := by
      intro row hrow
      obtain ⟨c, hc, rfl⟩ := List.mem_map.mp hrow
      show (c.map PyVal.str).mapM mkStrDual = _
      apply mapM_except_ok
      intro v hv
      obtain ⟨s, hs, rfl⟩ := List.mem_map.mp hv
      rfl
    rw [mapM_except_ok _ _ _ h1, List.map_map]
    congr 1
    apply List.map_congr_left
    intro c _
    show (c.map PyVal.str).map _ = c.map _
    rw [List.map_map]
    rfl
  · rw [List.map_map]
    apply List.map_congr_left
    intro c _
    show Except.ok ((c.map (fun s => ({ numData := 0, strData := s } : Dual))).map
      (fun d => Val.str d.strData)) = _
    rw [List.map_map]
    rfl

/-- C3: extraction of a String-classified batch reads exactly the textual
fields; the transposed value columns are the textual columns; and
encoding those columns back as a batch of string Duals and re-extracting
them through String classification reproduces the original textual
values in order, for any row count including zero. -/
theorem c3_string_round_trip (rows : List (List Dual)) (params : List Param)
    (context : GrpcContext) :
    (rows.map (fun duals =>
        (get_arguments context ArgType.String duals params).2) =
      rows.map (fun duals =>
        Except.ok (duals.map (fun d => Val.str d.strData)))) ∧
    (pyZip (rows.map (fun duals => duals.map (fun d => Val.str d.strData))) =
      (pyZip (rows.map (fun duals => duals.map (fun d => d.strData)))).map
        (fun c => c.map Val.str)) ∧
    (∃ batch,
      encode_result (PyVal.list ((pyZip (rows.map (fun duals =>
            duals.map (fun d => d.strData)))).map
          (fun c => PyVal.list (c.map PyVal.str)))) ReturnType.String =
        Except.ok batch ∧
      batch.map (fun duals =>
          (get_arguments context ArgType.String duals params).2) =
        (pyZip (rows.map (fun duals => duals.map (fun d => d.strData)))).map
          (fun c => Except.ok (c.map Val.str))) := by
  refine ⟨rfl, ?_, encode_extract_strings _ context params⟩
  have h : rows.map (fun duals => duals.map (fun d => Val.str d.strData)) =
      (rows.map (fun duals => duals.map (fun d => d.strData))).map
        (fun c => c.map Val.str) := by
    rw [List.map_map]
    apply List.map_congr_left
    intro ds _
    show ds.map _ = (ds.map (fun d => d.strData)).map Val.str
    rw [List.map_map]
    rfl
  rw [h, pyZip_map]

/-! ## C4 -/

/-- C4: when the argument classification is Undefined, per-row extraction
fails immediately: it sets the caller-visible invalid-argument status and
the message "Undefined argument type: " on the context and raises the
RpcError; for an invocation with parameters and at least one row the
error propagates out of the orchestrator (the invocation yields an error,
not a batch) with the status visible on the context. -/
theorem c4_undefined_classification_aborts (ev : Evaluator) (header : Header)
    (request : List (List (List Dual))) (context : GrpcContext)
    (hU : get_arg_types (header.params.map (fun p => p.dataType)) =
      ArgType.Undefined)
    (hp : header.params ≠ [])
    (hr : request.flatten ≠ []) :
    (∀ (c : GrpcContext) (duals : List Dual) (ps : List Param),
      get_arguments c ArgType.Undefined duals ps =
        ({ code := some StatusCode.invalidArgument
          , details := some "Undefined argument type: " },
         Except.error (PyErr.rpcError "Undefined argument type: "))) ∧
    (EvaluateScript ev header request context).result =
      Except.error (PyErr.rpcError "Undefined argument type: ") ∧
    (EvaluateScript ev header request context).context =
      { code := some StatusCode.invalidArgument
      , details := some "Undefined argument type: " } := by
  obtain ⟨r, rest, hrr⟩ := List.exists_cons_of_ne_nil hr
  have hcore : run_core ev header.script
      (get_arg_types (header.params.map (fun p => p.dataType)))
      (get_return_type header.returnType) header.params
      request.flatten context =
      ({ code := some StatusCode.invalidArgument
        , details := some "Undefined argument type: " },
       Except.error (PyErr.rpcError "Undefined argument type: ")) := by
    rw [hU]
    unfold run_core
    rw [if_neg hp, hrr]
    rfl
  refine ⟨fun c duals ps => rfl, ?_, ?_⟩
  · show (run_core ev header.script
      (get_arg_types (header.params.map (fun p => p.dataType)))
      (get_return_type header.returnType) header.params
      request.flatten context).2 = _
    rw [hcore]
  · show (run_core ev header.script
      (get_arg_types (header.params.map (fun p => p.dataType)))
      (get_return_type header.returnType) header.params
      request.flatten context).1 = _
    rw [hcore]

/-- C4 witness: uniform out-of-enum kinds `[7, 7]` with one bundled row. -/
theorem c4_witness :
    (EvaluateScript (fun _ _ => Except.ok (PyVal.str "ok"))
        { script := "s", functionType := 0, returnType := 0
        , params := [⟨7⟩, ⟨7⟩] }
        [[[⟨1, "a"⟩, ⟨2, "b"⟩]]] ⟨none, none⟩).result =
      Except.error (PyErr.rpcError "Undefined argument type: ") ∧
    (EvaluateScript (fun _ _ => Except.ok (PyVal.str "ok"))
        { script := "s", functionType := 0, returnType := 0
        , params := [⟨7⟩, ⟨7⟩] }
        [[[⟨1, "a"⟩, ⟨2, "b"⟩]]] ⟨none, none⟩).context =
      { code := some StatusCode.invalidArgument
      , details := some "Undefined argument type: " } :=
  (c4_undefined_classification_aborts (fun _ _ => Except.ok (PyVal.str "ok"))
    { script := "s", functionType := 0, returnType := 0
    , params := [⟨7⟩, ⟨7⟩] }
    [[[⟨1, "a"⟩, ⟨2, "b"⟩]]] ⟨none, none⟩
    (by decide) (by decide) (by decide)).2

/-! ## C7 -/

/-- C7: a successful invocation yields exactly one bundled-rows value
downstream, however many input bundles the request stream contains. -/
theorem c7_single_emitted_batch (ev : Evaluator) (header : Header)
    (request : List (List (List Dual))) (context : GrpcContext)
    (out : List (List (List Dual)))
    (h : (EvaluateScript ev header request context).result = Except.ok out) :
    out.length = 1 := by
  have h' : (run_core ev header.script
      (get_arg_types (header.params.map (fun p => p.dataType)))
      (get_return_type header.returnType) header.params
      request.flatten context).2 = Except.ok out := h
  unfold run_core at h'
  by_cases hp : header.params = []
  · rw [if_pos hp] at h'
    cases hev : evaluate ev header.script (get_return_type header.returnType) []
      with
    | error e => rw [hev] at h'; simp [Except.map] at h'
    | ok b =>
      rw [hev] at h'
      simp only [Except.map] at h'
      cases h'
      rfl
  · rw [if_neg hp] at h'
    rcases htr : transpose_args context
        (get_arg_types (header.params.map (fun p => p.dataType)))
        header.params request.flatten with ⟨c2, res⟩
    rw [htr] at h'
    cases res with
    | error e => simp at h'
    | ok cols =>
      simp only at h'
      cases hev : evaluate ev header.script (get_return_type header.returnType)
        cols with
      | error e => rw [hev] at h'; simp [Except.map] at h'
      | ok b =>
        rw [hev] at h'
        simp only [Except.map] at h'
        cases h'
        rfl

/-- C7 witness: a no-parameter invocation yielding one batch. -/
theorem c7_witness :
    ([[[({ numData := 0, strData := "ok" } : Dual)]]] :
      List (List (List Dual))).length = 1 :=
  c7_single_emitted_batch (fun _ _ => Except.ok (PyVal.str "ok"))
    { script := "s", functionType := 0, returnType := 0, params := [] }
    [] ⟨none, none⟩ [[[{ numData := 0, strData := "ok" }]]] rfl

/-! ## C8 -/

/-- C8: two invocations identical except for the function-type tag
produce the same final context and the same emitted result; the tag is
resolved only into the diagnostic log record. -/
theorem c8_function_type_is_diagnostic_only (ev : Evaluator) (header : Header)
    (ft1 ft2 : Nat) (request : List (List (List Dual)))
    (context : GrpcContext) :
    (EvaluateScript ev { header with functionType := ft1 } request
        context).context =
      (EvaluateScript ev { header with functionType := ft2 } request
        context).context ∧
    (EvaluateScript ev { header with functionType := ft1 } request
        context).result =
      (EvaluateScript ev { header with functionType := ft2 } request
        context).result :=
  ⟨rfl, rfl⟩

/-! ## C1 infrastructure -/

/-- On a nonempty collection of rows all of length `N`, the `zip` bound
is `N`. -/
theorem pyMinLen_uniform {α : Type} (N : Nat) :
    ∀ rows : List (List α), rows ≠ [] → (∀ r ∈ rows, r.length = N) →
      pyMinLen rows = N
  | [], h, _ => absurd rfl h
  | [r], _, hl => by simp [pyMinLen, hl r (by simp)]
  | r :: r2 :: rs, _, hl => by
    have ih := pyMinLen_uniform N (r2 :: rs) (by simp)
      (fun x hx => hl x (List.mem_cons_of_mem r hx))
    simp [pyMinLen, ih, hl r (by simp)]

/-- A column selection over rows that are all long enough keeps one entry
per row. -/
theorem filterMap_getElem_length {α : Type} (i : Nat) :
    ∀ rows : List (List α), (∀ r ∈ rows, i < r.length) →
      (rows.filterMap (fun r => r[i]?)).length = rows.length
  | [], _ => rfl
  | r :: t, h => by
    have hr : i < r.length := h r (by simp)
    have ih := filterMap_getElem_length i t
      (fun x hx => h x (List.mem_cons_of_mem r hx))
    rw [List.filterMap_cons, List.getElem?_eq_getElem hr]
    simp [ih]

/-- The transpose has one column per index below the `zip` bound. -/
theorem pyZip_length {α : Type} (rows : List (List α)) :
    (pyZip rows).length = pyMinLen rows := by
  simp [pyZip]

/-- Each column of the transpose selects index `i` from every row. -/
theorem pyZip_getElem {α : Type} (rows : List (List α)) (i : Nat)
    (h : i < pyMinLen rows) :
    (pyZip rows)[i]? = some (rows.filterMap (fun r => r[i]?)) := by
  unfold pyZip
  rw [List.getElem?_map, List.getElem?_range h]
  rfl

/-- Shape of the flat column list built from uniform-length rows. -/
theorem flat_cols_spec (all_rows : List (List Val)) (N : Nat)
    (hne : all_rows ≠ []) (hl : ∀ r ∈ all_rows, r.length = N) :
    ((pyZip all_rows).map Column.flat).length = N ∧
    ∀ i, i < N →
      ((pyZip all_rows).map Column.flat)[i]? =
        some (Column.flat (all_rows.filterMap (fun r => r[i]?))) ∧
      (all_rows.filterMap (fun r => r[i]?)).length = all_rows.length := by
  have hmin : pyMinLen all_rows = N := pyMinLen_uniform N all_rows hne hl
  refine ⟨by simp [pyZip_length, hmin], fun i hi => ⟨?_, ?_⟩⟩
  · rw [List.getElem?_map, pyZip_getElem all_rows i (by rw [hmin]; exact hi)]
    rfl
  · exact filterMap_getElem_length i all_rows
      (fun r hr => by rw [hl r hr]; exact hi)

/-- The extraction loop under String classification reads every textual
field, row by row, without touching the context. -/
theorem extractAll_string (context : GrpcContext) (params : List Param) :
    ∀ rows : List (List Dual),
      extractAll context ArgType.String params rows =
        (context, Except.ok (rows.map (fun ds =>
          ds.map (fun d => Val.str d.strData))))
  | [] => rfl
  | r :: t => by
    have ih := extractAll_string context params t
    simp [extractAll, get_arguments, ih]

/-- The extraction loop under Numeric classification reads every numeric
field. -/
theorem extractAll_numeric (context : GrpcContext) (params : List Param) :
    ∀ rows : List (List Dual),
      extractAll context ArgType.Numeric params rows =
        (context, Except.ok (rows.map (fun ds =>
          ds.map (fun d => Val.num d.numData))))
  | [] => rfl
  | r :: t => by
    have ih := extractAll_numeric context params t
    simp [extractAll, get_arguments, ih]

/-- The extraction loop under Mixed classification applies `mixedArgs`
row by row. -/
theorem extractAll_mixed (context : GrpcContext) (params : List Param) :
    ∀ rows : List (List Dual),
      extractAll context ArgType.Mixed params rows =
        (context, Except.ok (rows.map (fun ds => mixedArgs ds params)))
  | [] => rfl
  | r :: t => by
    have ih := extractAll_mixed context params t
    simp [extractAll, get_arguments, ih]

/-- On an in-enum parameter the Mixed branch contributes exactly one
value. -/
theorem mixedArgs_cons_of_enum (d : Dual) (p : Param)
    (ds : List Dual) (ps : List Param) (h : inDataEnum p) :
    mixedArgs (d :: ds) (p :: ps) = extractOne d p :: mixedArgs ds ps := by
  rcases h with h | h | h <;>
    simp [mixedArgs, extractOne, h, STRING, NUMERIC, DUAL]

/-- With in-enum parameters and one dual per parameter, the Mixed branch
extracts one value per parameter. -/
theorem mixedArgs_length_of_enum :
    ∀ (ds : List Dual) (ps : List Param), (∀ p ∈ ps, inDataEnum p) →
      ds.length = ps.length → (mixedArgs ds ps).length = ps.length
  | [], [], _, _ => rfl
  | [], _ :: _, _, h => by simp at h
  | _ :: _, [], _, h => by simp at h
  | d :: ds, p :: ps, henum, h => by
    rw [mixedArgs_cons_of_enum d p ds ps (henum p (by simp))]
    simp [mixedArgs_length_of_enum ds ps
      (fun q hq => henum q (by simp [hq])) (by simpa using h)]

/-- Pointwise description of the Mixed extraction of one row. -/
theorem mixedArgs_getElem_of_enum :
    ∀ (ds : List Dual) (ps : List Param), (∀ p ∈ ps, inDataEnum p) →
      ds.length = ps.length → ∀ i, i < ps.length →
      (mixedArgs ds ps)[i]? =
        some (extractOne (ds.getD i ⟨0, ""⟩) (ps.getD i ⟨0⟩))
  | [], [], _, _, _, hi => by simp at hi
  | [], _ :: _, _, h, _, _ => by simp at h
  | _ :: _, [], _, h, _, _ => by simp at h
  | d :: ds, p :: ps, henum, h, i, hi => by
    rw [mixedArgs_cons_of_enum d p ds ps (henum p (by simp))]
    cases i with
    | zero => simp
    | succ i' =>
      have ih := mixedArgs_getElem_of_enum ds ps
        (fun q hq => henum q (by simp [hq])) (by simpa using h) i'
        (by simpa using hi)
      simpa using ih

/-- A `filterMap` that never drops is a `map`. -/
theorem filterMap_eq_map_of_some {α β : Type} (f : α → Option β) (g : α → β) :
    ∀ l : List α, (∀ x ∈ l, f x = some (g x)) → l.filterMap f = l.map g
  | [], _ => rfl
  | a :: t, h => by
    rw [List.filterMap_cons, h a (by simp),
      filterMap_eq_map_of_some f g t (fun x hx => h x (by simp [hx]))]
    rfl

/-- Unzipping a nonempty column of tuples yields its two component
columns. -/
theorem splitDualColumn_pairs (col : List Val) (hne : col ≠ [])
    (h : ∀ v ∈ col, ∃ n s, v = Val.pair n s) :
    splitDualColumn col =
      Except.ok (Column.split ((col.map pairParts).map Prod.fst)
        ((col.map pairParts).map Prod.snd)) := by
  have hmapM : col.mapM toPair = some (col.map pairParts) :=
    mapM_option_some toPair pairParts col (fun v hv => by
      obtain ⟨n, s, rfl⟩ := h v hv; rfl)
  cases col with
  | nil => exact absurd rfl hne
  | cons a t =>
    simp only [splitDualColumn]
    rw [hmapM]

/-- Specification of the Mixed post-processing loop: given that every
DUAL-typed position holds a splittable flat column, the loop succeeds,
preserves the column count, leaves non-DUAL positions untouched and
replaces each DUAL position by its split form. -/
theorem stage2Step_spec (ps : List Param) : ∀ (n : Nat) (cols : List Column),
    (∀ k, k < ps.length → (ps.getD k ⟨0⟩).dataType = DUAL →
      ∃ vs c, cols[n + k]? = some (Column.flat vs) ∧
        splitDualColumn vs = Except.ok c) →
    ∃ cols', stage2Step (List.enumFrom n ps) cols = Except.ok cols' ∧
      cols'.length = cols.length ∧
      (∀ j : Nat, (∀ k, k < ps.length → n + k = j →
          (ps.getD k ⟨0⟩).dataType ≠ DUAL) → cols'[j]? = cols[j]?) ∧
      (∀ k, k < ps.length → (ps.getD k ⟨0⟩).dataType = DUAL →
        ∀ vs, cols[n + k]? = some (Column.flat vs) →
        ∀ c, splitDualColumn vs = Except.ok c → cols'[n + k]? = some c) := by
  induction ps with
  | nil =>
    intro n cols _
    exact ⟨cols, rfl, rfl, fun _ _ => rfl, fun k hk => by simp at hk⟩
  | cons p ps ih =>
    intro n cols h
    rw [List.enumFrom_cons]
    by_cases hp : p.dataType = DUAL
    · obtain ⟨vs, c, hcol, hsplit⟩ := h 0 (by simp) (by simpa using hp)
      rw [Nat.add_zero] at hcol
      have hlt : n < cols.length := by
        by_contra hge
        rw [List.getElem?_eq_none (Nat.le_of_not_lt hge)] at hcol
        exact Option.noConfusion hcol
      have hstep : stage2Step ((n, p) :: List.enumFrom (n + 1) ps) cols =
          stage2Step (List.enumFrom (n + 1) ps) (cols.set n c) := by
        simp only [stage2Step, if_pos hp, hcol, hsplit]
      have hih : ∀ k, k < ps.length → (ps.getD k ⟨0⟩).dataType = DUAL →
          ∃ vs' c', (cols.set n c)[(n + 1) + k]? = some (Column.flat vs') ∧
            splitDualColumn vs' = Except.ok c' := by
        intro k hk hdual
        have h' := h (k + 1) (by simpa using Nat.succ_lt_succ hk)
          (by simpa using hdual)
        rw [show n + (k + 1) = (n + 1) + k by omega] at h'
        obtain ⟨vs', c', hc', hs'⟩ := h'
        exact ⟨vs', c', by rw [List.getElem?_set_ne (by omega)]; exact hc', hs'⟩
      obtain ⟨cols', hrun, hlen', hunt, htch⟩ := ih (n + 1) (cols.set n c) hih
      refine ⟨cols', by rw [hstep]; exact hrun,
        by rw [hlen', List.length_set], ?_, ?_⟩
      · intro j hj
        have hjn : j ≠ n := by
          intro heq
          exact (hj 0 (by simp) (by omega)) (by simpa using hp)
        calc cols'[j]? = (cols.set n c)[j]? :=
              hunt j (fun k hk heq =>
                hj (k + 1) (by simpa using Nat.succ_lt_succ hk) (by omega))
          _ = cols[j]? := List.getElem?_set_ne (fun h' => hjn h'.symm)
      · intro k hk hdual vs0 hvs0 c0 hc0
        cases k with
        | zero =>
          rw [Nat.add_zero] at hvs0 ⊢
          rw [hcol] at hvs0
          have hvv : vs0 = vs := (Column.flat.inj (Option.some.inj hvs0)).symm
          subst hvv
          rw [hsplit] at hc0
          have hcc : c0 = c := (Except.ok.inj hc0).symm
          subst hcc
          rw [hunt n (fun k hk habs => absurd habs (by omega)),
            List.getElem?_set_self hlt]
        | succ k' =>
          have hk' : k' < ps.length := by simpa using hk
          have h' := htch k' hk' (by simpa using hdual)
          rw [show (n + 1) + k' = n + (k' + 1) by omega] at h'
          apply h' vs0 ?_ c0 hc0
          rw [List.getElem?_set_ne (by omega)]
          exact hvs0
    · have hstep : stage2Step ((n, p) :: List.enumFrom (n + 1) ps) cols =
          stage2Step (List.enumFrom (n + 1) ps) cols := by
        simp only [stage2Step, if_neg hp]
      have hih : ∀ k, k < ps.length → (ps.getD k ⟨0⟩).dataType = DUAL →
          ∃ vs' c', cols[(n + 1) + k]? = some (Column.flat vs') ∧
            splitDualColumn vs' = Except.ok c' := by
        intro k hk hdual
        have h' := h (k + 1) (by simpa using Nat.succ_lt_succ hk)
          (by simpa using hdual)
        rw [show n + (k + 1) = (n + 1) + k by omega] at h'
        exact h'
      obtain ⟨cols', hrun, hlen', hunt, htch⟩ := ih (n + 1) cols hih
      refine ⟨cols', by rw [hstep]; exact hrun, hlen', ?_, ?_⟩
      · intro j hj
        exact hunt j (fun k hk heq =>
          hj (k + 1) (by simpa using Nat.succ_lt_succ hk) (by omega))
      · intro k hk hdual vs0 hvs0 c0 hc0
        cases k with
        | zero => exact absurd (by simpa using hdual) hp
        | succ k' =>
          have hk' : k' < ps.length := by simpa using hk
          have h' := htch k' hk' (by simpa using hdual)
          rw [show (n + 1) + k' = n + (k' + 1) by omega] at h'
          exact h' vs0 hvs0 c0 hc0

/-- A nonempty parameter list with in-enum kinds classifies as String,
Numeric or Mixed — never Empty or Undefined. -/
theorem get_arg_types_of_enum (params : List Param)
    (henum : ∀ p ∈ params, inDataEnum p) (hp : params ≠ []) :
    get_arg_types (params.map (fun p => p.dataType)) = ArgType.String ∨
    get_arg_types (params.map (fun p => p.dataType)) = ArgType.Numeric ∨
    get_arg_types (params.map (fun p => p.dataType)) = ArgType.Mixed := by
  set dts := params.map (fun p => p.dataType) with hdts
  have hnil : dts ≠ [] := by simpa [hdts] using hp
  by_cases c1 : 1 < dts.dedup.length ∨ ∀ d ∈ dts, d = DUAL
  · refine Or.inr (Or.inr ?_)
    simp only [get_arg_types, if_neg hnil, if_pos c1]
  · by_cases c2 : ∀ d ∈ dts, d = STRING
    · refine Or.inl ?_
      simp only [get_arg_types, if_neg hnil, if_neg c1, if_pos c2]
    · by_cases c3 : ∀ d ∈ dts, d = NUMERIC
      · refine Or.inr (Or.inl ?_)
        simp only [get_arg_types, if_neg hnil, if_neg c1, if_neg c2, if_pos c3]
      · exfalso
        push_neg at c1
        obtain ⟨hle, x, hxmem, hxne⟩ := c1
        have hdne : dts.dedup ≠ [] := fun h =>
          hnil ((List.dedup_eq_nil dts).mp h)
        obtain ⟨k, hdk⟩ : ∃ k, dts.dedup = [k] := by
          cases hdd : dts.dedup with
          | nil => exact absurd hdd hdne
          | cons a t =>
            cases t with
            | nil => exact ⟨a, rfl⟩
            | cons b t2 => rw [hdd] at hle; simp at hle
        have hallk : ∀ x ∈ dts, x = k := by
          intro x hx
          have : x ∈ dts.dedup := List.mem_dedup.mpr hx
          rw [hdk] at this
          simpa using this
        have hkd : k ∈ dts := by
          have : k ∈ dts.dedup := by rw [hdk]; simp
          exact List.mem_dedup.mp this
        obtain ⟨p, hpmem, hpk⟩ := List.mem_map.mp hkd
        rcases henum p hpmem with he | he | he
        · exact c2 (fun y hy => (hallk y hy).trans (hpk ▸ he))
        · exact c3 (fun y hy => (hallk y hy).trans (hpk ▸ he))
        · exact hxne ((hallk x hxmem).trans (hpk ▸ he))

/-- Shape of the transpose under a non-Mixed classification whose
extraction maps one function over every dual of every row. -/
theorem transpose_flat_shape (context : GrpcContext) (arg_types : ArgType)
    (params : List Param) (rows : List (List Dual)) (f : Dual → Val)
    (hat : arg_types ≠ ArgType.Mixed)
    (hext : extractAll context arg_types params rows =
      (context, Except.ok (rows.map (fun ds => ds.map f))))
    (hlen : ∀ r ∈ rows, r.length = params.length)
    (hM : rows ≠ []) :
    ∃ cols,
      transpose_args context arg_types params rows =
        (context, Except.ok cols) ∧
      cols.length = params.length ∧
      ∀ i, i < params.length →
        ∃ vs, cols[i]? = some (Column.flat vs) ∧ vs.length = rows.length := by
  have hne : rows.map (fun ds => ds.map f) ≠ [] := by
    simpa using hM
  have hlens : ∀ r ∈ rows.map (fun ds => ds.map f), r.length = params.length := by
    intro r hr
    obtain ⟨ds, hds, rfl⟩ := List.mem_map.mp hr
    simp [hlen ds hds]
  obtain ⟨hclen, hcspec⟩ :=
    flat_cols_spec (rows.map (fun ds => ds.map f)) params.length hne hlens
  have htr : transpose_args context arg_types params rows =
      (context, Except.ok
        ((pyZip (rows.map (fun ds => ds.map f))).map Column.flat)) := by
    unfold transpose_args
    rw [hext]
    dsimp only
    rw [if_neg hat]
  refine ⟨(pyZip (rows.map (fun ds => ds.map f))).map Column.flat, htr,
    hclen, ?_⟩
  intro i hi
  obtain ⟨hcol, hlenc⟩ := hcspec i hi
  exact ⟨_, hcol, by rw [hlenc, List.length_map]⟩

/-- C1 (amended to at least one row): for `N` in-enum parameters and
`M ≥ 1` rows of `N` duals each, the transpose yields `N` columns; under
String or Numeric classification every column is flat of length `M`;
under Mixed classification a DUAL-typed parameter's column is split into
a numeric and a textual column of length `M` each, while every other
parameter keeps one flat column of length `M`. -/
theorem c1_transpose_shape (context : GrpcContext) (params : List Param)
    (rows : List (List Dual))
    (henum : ∀ p ∈ params, inDataEnum p)
    (hp : params ≠ [])
    (hlen : ∀ r ∈ rows, r.length = params.length)
    (hM : rows ≠ []) :
    ∃ cols,
      transpose_args context (get_arg_types (params.map (fun p => p.dataType)))
          params rows = (context, Except.ok cols) ∧
      cols.length = params.length ∧
      ∀ i, i < params.length →
        ((get_arg_types (params.map (fun p => p.dataType)) = ArgType.String ∨
          get_arg_types (params.map (fun p => p.dataType)) = ArgType.Numeric) →
          ∃ vs, cols[i]? = some (Column.flat vs) ∧ vs.length = rows.length) ∧
        (get_arg_types (params.map (fun p => p.dataType)) = ArgType.Mixed →
          ((params.getD i ⟨0⟩).dataType = DUAL →
            ∃ nums strs, cols[i]? = some (Column.split nums strs) ∧
              nums.length = rows.length ∧ strs.length = rows.length) ∧
          ((params.getD i ⟨0⟩).dataType ≠ DUAL →
            ∃ vs, cols[i]? = some (Column.flat vs) ∧
              vs.length = rows.length)) := by
  rcases get_arg_types_of_enum params henum hp with hS | hN | hMx
  · rw [hS]
    obtain ⟨cols, htr, hclen, hflat⟩ := transpose_flat_shape context
      ArgType.String params rows (fun d => Val.str d.strData) (by decide)
      (extractAll_string context params rows) hlen hM
    refine ⟨cols, htr, hclen, fun i hi => ⟨fun _ => hflat i hi, ?_⟩⟩
    intro habs
    exact absurd habs (by decide)
  · rw [hN]
    obtain ⟨cols, htr, hclen, hflat⟩ := transpose_flat_shape context
      ArgType.Numeric params rows (fun d => Val.num d.numData) (by decide)
      (extractAll_numeric context params rows) hlen hM
    refine ⟨cols, htr, hclen, fun i hi => ⟨fun _ => hflat i hi, ?_⟩⟩
    intro habs
    exact absurd habs (by decide)
  · rw [hMx]
    have hne : rows.map (fun ds => mixedArgs ds params) ≠ [] := by
      simpa using hM
    have hlens : ∀ r ∈ rows.map (fun ds => mixedArgs ds params),
        r.length = params.length := by
      intro r hr
      obtain ⟨ds, hds, rfl⟩ := List.mem_map.mp hr
      exact mixedArgs_length_of_enum ds params henum (hlen ds hds)
    obtain ⟨hclenF, hcspecF⟩ :=
      flat_cols_spec (rows.map (fun ds => mixedArgs ds params))
        params.length hne hlens
    have hcolctn : ∀ k, k < params.length →
        (rows.map (fun ds => mixedArgs ds params)).filterMap
            (fun r => r[k]?) =
          rows.map (fun r =>
            extractOne (r.getD k ⟨0, ""⟩) (params.getD k ⟨0⟩)) := by
      intro k hk
      rw [List.filterMap_map]
      apply filterMap_eq_map_of_some
      intro r hr
      show (mixedArgs r params)[k]? = _
      exact mixedArgs_getElem_of_enum r params henum (hlen r hr) k hk
    have hcolne : ∀ k : Nat,
        ((rows.map (fun ds => mixedArgs ds params)).filterMap
          (fun r : List Val => r[k]?)).length =
            (rows.map (fun ds => mixedArgs ds params)).length →
        (rows.map (fun ds => mixedArgs ds params)).filterMap
          (fun r : List Val => r[k]?) ≠ [] := by
      intro k hlenk
      have hpos : 0 < ((rows.map (fun ds => mixedArgs ds params)).filterMap
          (fun r : List Val => r[k]?)).length := by
        rw [hlenk, List.length_map]
        exact List.length_pos.mpr hM
      exact List.length_pos.mp hpos
    have hkey : ∀ k, k < params.length → (params.getD k ⟨0⟩).dataType = DUAL →
        splitDualColumn ((rows.map (fun ds => mixedArgs ds params)).filterMap
            (fun r => r[k]?)) =
          Except.ok (Column.split
            ((((rows.map (fun ds => mixedArgs ds params)).filterMap
              (fun r => r[k]?)).map pairParts).map Prod.fst)
            ((((rows.map (fun ds => mixedArgs ds params)).filterMap
              (fun r => r[k]?)).map pairParts).map Prod.snd)) := by
      intro k hk hdual
      apply splitDualColumn_pairs
      · exact hcolne k (hcspecF k hk).2
      · rw [hcolctn k hk]
        intro v hv
        obtain ⟨r, hr, rfl⟩ := List.mem_map.mp hv
        refine ⟨(r.getD k ⟨0, ""⟩).numData, (r.getD k ⟨0, ""⟩).strData, ?_⟩
        unfold extractOne
        rw [hdual]
        simp [STRING, NUMERIC, DUAL]
    have hstage : ∀ k, k < params.length →
        (params.getD k ⟨0⟩).dataType = DUAL →
        ∃ vs c, ((pyZip (rows.map (fun ds => mixedArgs ds params))).map
            Column.flat)[0 + k]? = some (Column.flat vs) ∧
          splitDualColumn vs = Except.ok c := by
      intro k hk hdual
      refine ⟨(rows.map (fun ds => mixedArgs ds params)).filterMap
        (fun r => r[k]?), _, ?_, hkey k hk hdual⟩
      rw [Nat.zero_add]
      exact (hcspecF k hk).1
    obtain ⟨cols', hrun, hlen', hunt, htch⟩ :=
      stage2Step_spec params 0
        ((pyZip (rows.map (fun ds => mixedArgs ds params))).map Column.flat)
        hstage
    have htr : transpose_args context ArgType.Mixed params rows =
        (context, stage2_all params
          ((pyZip (rows.map (fun ds => mixedArgs ds params))).map
            Column.flat)) := by
      unfold transpose_args
      rw [extractAll_mixed]
      dsimp only
      rw [if_pos rfl]
    have hstg : stage2_all params
        ((pyZip (rows.map (fun ds => mixedArgs ds params))).map Column.flat) =
          Except.ok cols' := hrun
    refine ⟨cols', by rw [htr, hstg], by rw [hlen', hclenF], ?_⟩
    intro i hi
    constructor
    · rintro (habs | habs) <;> exact absurd habs (by decide)
    · intro _
      constructor
      · intro hdual
        have h' := htch i hi hdual
          ((rows.map (fun ds => mixedArgs ds params)).filterMap
            (fun r => r[i]?))
          (by rw [Nat.zero_add]; exact (hcspecF i hi).1)
          _ (hkey i hi hdual)
        rw [Nat.zero_add] at h'
        refine ⟨_, _, h', ?_, ?_⟩
        · simp only [List.length_map]
          rw [(hcspecF i hi).2, List.length_map]
        · simp only [List.length_map]
          rw [(hcspecF i hi).2, List.length_map]
      · intro hnotdual
        have h' := hunt i (fun k hk heq => by
          rw [show k = i by omega]
          exact hnotdual)
        rw [h']
        refine ⟨(rows.map (fun ds => mixedArgs ds params)).filterMap
          (fun r => r[i]?), (hcspecF i hi).1, ?_⟩
        rw [(hcspecF i hi).2, List.length_map]

/-- C1 counterexample at zero rows: one Numeric parameter and an empty
row stream transpose to zero columns, not one column of length zero. -/
theorem c1_counterexample :
    transpose_args ⟨none, none⟩
        (get_arg_types (([⟨NUMERIC⟩] : List Param).map (fun p => p.dataType)))
        [⟨NUMERIC⟩] [] =
      (⟨none, none⟩, Except.ok ([] : List Column)) ∧
    ¬ ∃ cols : List Column,
        transpose_args ⟨none, none⟩
            (get_arg_types (([⟨NUMERIC⟩] : List Param).map
              (fun p => p.dataType)))
            [⟨NUMERIC⟩] [] =
          (⟨none, none⟩, Except.ok cols) ∧ cols.length = 1 := by
  have hbase : transpose_args ⟨none, none⟩
      (get_arg_types (([⟨NUMERIC⟩] : List Param).map (fun p => p.dataType)))
      [⟨NUMERIC⟩] [] = (⟨none, none⟩, Except.ok ([] : List Column)) := by
    rfl
  refine ⟨hbase, ?_⟩
  rintro ⟨cols, hc, hlen⟩
  rw [hbase] at hc
  have : ([] : List Column) = cols := by
    have := (Prod.mk.injEq _ _ _ _).mp hc
    exact Except.ok.inj this.2
  rw [← this] at hlen
  simp at hlen

/-- C1 witness: three parameters String, Numeric and Dual (Mixed
classification) and one row of three duals. -/
theorem c1_witness :
    ∃ cols,
      transpose_args ⟨none, none⟩
          (get_arg_types (([⟨0⟩, ⟨1⟩, ⟨2⟩] : List Param).map
            (fun p => p.dataType)))
          [⟨0⟩, ⟨1⟩, ⟨2⟩]
          [[⟨1, "a"⟩, ⟨2, "b"⟩, ⟨3, "c"⟩]] =
        (⟨none, none⟩, Except.ok cols) ∧
      cols.length = ([⟨0⟩, ⟨1⟩, ⟨2⟩] : List Param).length ∧
      ∀ i, i < ([⟨0⟩, ⟨1⟩, ⟨2⟩] : List Param).length →
        ((get_arg_types (([⟨0⟩, ⟨1⟩, ⟨2⟩] : List Param).map
            (fun p => p.dataType)) = ArgType.String ∨
          get_arg_types (([⟨0⟩, ⟨1⟩, ⟨2⟩] : List Param).map
            (fun p => p.dataType)) = ArgType.Numeric) →
          ∃ vs, cols[i]? = some (Column.flat vs) ∧
            vs.length = ([[⟨1, "a"⟩, ⟨2, "b"⟩, ⟨3, "c"⟩]] :
              List (List Dual)).length) ∧
        (get_arg_types (([⟨0⟩, ⟨1⟩, ⟨2⟩] : List Param).map
            (fun p => p.dataType)) = ArgType.Mixed →
          ((([⟨0⟩, ⟨1⟩, ⟨2⟩] : List Param).getD i ⟨0⟩).dataType = DUAL →
            ∃ nums strs, cols[i]? = some (Column.split nums strs) ∧
              nums.length = ([[⟨1, "a"⟩, ⟨2, "b"⟩, ⟨3, "c"⟩]] :
                List (List Dual)).length ∧
              strs.length = ([[⟨1, "a"⟩, ⟨2, "b"⟩, ⟨3, "c"⟩]] :
                List (List Dual)).length) ∧
          ((([⟨0⟩, ⟨1⟩, ⟨2⟩] : List Param).getD i ⟨0⟩).dataType ≠ DUAL →
            ∃ vs, cols[i]? = some (Column.flat vs) ∧
              vs.length = ([[⟨1, "a"⟩, ⟨2, "b"⟩, ⟨3, "c"⟩]] :
                List (List Dual)).length)) :=
  c1_transpose_shape ⟨none, none⟩ [⟨0⟩, ⟨1⟩, ⟨2⟩]
    [[⟨1, "a"⟩, ⟨2, "b"⟩, ⟨3, "c"⟩]]
    (by intro p hp; fin_cases hp <;> simp [inDataEnum, STRING, NUMERIC, DUAL])
    (by decide) (by intro r hr; fin_cases hr; decide) (by decide)
